import Mathlib

/-
Shallow embedding of the telephony-gateway call coordination layer of
`sales-voice-assistant` (apps/telephony-gateway/src/services): the
`CallManager` (Call Registry + Session Tracker), the `WebRTCHandler`
(Signaling Relay Coordinator) and the `SIPService` (SIP Transport
Coordinator).

Modelling conventions:
* JavaScript `Map` objects become insertion-ordered association lists with
  `Map.set` replacing the value in place and `Map.delete` removing the key.
* `Date` values become `Nat` milliseconds; the `new Date()` / `Date.now()`
  reads performed inside one synchronous operation are modelled as a single
  `now` parameter passed to that operation.
* The Redis cache stores `JSON.stringify`-ed values; the serialization
  round-trip is modelled as storing the value itself, and the cache for
  calls / sessions is a keyed map from the identifier (the `call:`/`session:`
  key prefixes are dropped since the two key spaces are modelled separately).
* `throw new Error(...)` becomes an `Except`-style error value returned next
  to the (always returned) post-state, so that the state reached on a
  failure path stays observable.
* Observable external effects (durable-store writes, cache writes and
  deletes, emitted domain events) are additionally appended to a `trace`
  field in arrival order; in-process map mutations are not external effects.
* `confidenceScore` is a numeric payload that is only ever copied, never
  computed with; it is modelled as `Int`.
-/

namespace SVA

/-- Association-list lookup: first binding wins (JS `Map.get`). -/
def lookupA {α : Type} : List (String × α) → String → Option α
  | [], _ => none
  | (k', v) :: rest, k => if k' = k then some v else lookupA rest k

/-- Association-list insert: replace the first binding of the key in place,
else append (JS `Map.set`, which keeps insertion order). -/
def insertA {α : Type} : List (String × α) → String → α → List (String × α)
  | [], k, v => [(k, v)]
  | (k', v') :: rest, k, v =>
      if k' = k then (k, v) :: rest else (k', v') :: insertA rest k v

/-- Association-list erase: drop every binding of the key (JS `Map.delete`). -/
def eraseA {α : Type} : List (String × α) → String → List (String × α)
  | [], _ => []
  | (k', v') :: rest, k =>
      if k' = k then eraseA rest k else (k', v') :: eraseA rest k

theorem lookupA_insertA_self {α : Type} (m : List (String × α)) (k : String) (v : α) :
    lookupA (insertA m k v) k = some v := by
  induction m with
  | nil => simp [insertA, lookupA]
  | cons p rest ih =>
      obtain ⟨k', v'⟩ := p
      by_cases h : k' = k
      · simp [insertA, lookupA, h]
      · simp [insertA, lookupA, h, ih]

theorem lookupA_insertA_ne {α : Type} (m : List (String × α)) (k k' : String) (v : α)
    (h : k ≠ k') : lookupA (insertA m k v) k' = lookupA m k' := by
  induction m with
  | nil => simp [insertA, lookupA, h]
  | cons p rest ih =>
      obtain ⟨k₀, v₀⟩ := p
      by_cases h₀ : k₀ = k
      · subst h₀
        simp [insertA, lookupA, h]
      · simp [insertA, lookupA, h₀, ih]

theorem lookupA_eraseA_self {α : Type} (m : List (String × α)) (k : String) :
    lookupA (eraseA m k) k = none := by
  induction m with
  | nil => simp [eraseA, lookupA]
  | cons p rest ih =>
      obtain ⟨k', v'⟩ := p
      by_cases h : k' = k
      · simp [eraseA, h, ih]
      · simp [eraseA, lookupA, h, ih]

theorem lookupA_eraseA_ne {α : Type} (m : List (String × α)) (k k' : String)
    (h : k ≠ k') : lookupA (eraseA m k) k' = lookupA m k' := by
  induction m with
  | nil => simp [eraseA]
  | cons p rest ih =>
      obtain ⟨k₀, v₀⟩ := p
      by_cases h₀ : k₀ = k
      · subst h₀
        simp [eraseA, lookupA, h, ih]
      · simp [eraseA, lookupA, h₀, ih]

instance {ε α : Type} [DecidableEq ε] [DecidableEq α] : DecidableEq (Except ε α) :=
  fun x y =>
    match x, y with
    | .ok a, .ok b =>
        if h : a = b then isTrue (by rw [h]) else isFalse (by simp [h])
    | .error e, .error f =>
        if h : e = f then isTrue (by rw [h]) else isFalse (by simp [h])
    | .ok _, .error _ => isFalse (by simp)
    | .error _, .ok _ => isFalse (by simp)

/-- Call direction (`'incoming' | 'outgoing'`). -/
inductive Direction : Type
  | incoming
  | outgoing
  deriving DecidableEq, Repr

/-- Call status, from the `Call` interface in `CallManager.ts`. -/
inductive CallStatus : Type
  | initiated
  | ringing
  | answered
  | completed
  | failed
  | busy
  | no_answer
  deriving DecidableEq, Repr

/-- Terminal statuses per the spec's state machine: completed, failed, busy,
no_answer. -/
def isTerminal : CallStatus → Bool
  | .completed => true
  | .failed => true
  | .busy => true
  | .no_answer => true
  | _ => false

/-- Sentiment classification (`'positive' | 'neutral' | 'negative'`). -/
inductive Sentiment : Type
  | positive
  | neutral
  | negative
  deriving DecidableEq, Repr

/-- The canonical `Call` record (interface `Call` in `CallManager.ts`).
Optional TS fields become `Option`; `Date` fields become `Nat` ms. -/
structure Call : Type where
  id : String
  clientId : Option String
  phoneNumber : String
  direction : Direction
  status : CallStatus
  duration : Nat
  recordingUrl : Option String
  transcript : Option String
  summary : Option String
  sentiment : Option Sentiment
  confidenceScore : Option Int
  createdAt : Nat
  updatedAt : Nat
  deriving DecidableEq, Repr

/-- `Partial<Call>`: every field optional, `none` meaning the key is absent
(JS `undefined`). -/
structure CallPatch : Type where
  id : Option String := none
  clientId : Option String := none
  phoneNumber : Option String := none
  direction : Option Direction := none
  status : Option CallStatus := none
  duration : Option Nat := none
  recordingUrl : Option String := none
  transcript : Option String := none
  summary : Option String := none
  sentiment : Option Sentiment := none
  confidenceScore : Option Int := none
  createdAt : Option Nat := none
  updatedAt : Option Nat := none
  deriving DecidableEq, Repr

/-- Merge of one optional field: the patch value when the key is present,
else the call's current value. -/
def mergeOpt {α : Type} (pv : Option α) (cv : Option α) : Option α :=
  match pv with
  | some v => some v
  | none => cv

/-- `Object.assign(call, patch)`: every present field of the patch overwrites
the corresponding field of the call. -/
def applyPatch (c : Call) (p : CallPatch) : Call :=
  { id := p.id.getD c.id
    clientId := mergeOpt p.clientId c.clientId
    phoneNumber := p.phoneNumber.getD c.phoneNumber
    direction := p.direction.getD c.direction
    status := p.status.getD c.status
    duration := p.duration.getD c.duration
    recordingUrl := mergeOpt p.recordingUrl c.recordingUrl
    transcript := mergeOpt p.transcript c.transcript
    summary := mergeOpt p.summary c.summary
    sentiment := mergeOpt p.sentiment c.sentiment
    confidenceScore := mergeOpt p.confidenceScore c.confidenceScore
    createdAt := p.createdAt.getD c.createdAt
    updatedAt := p.updatedAt.getD c.updatedAt }

/-- `DatabaseService.updateCall` field application: only status, duration,
recordingUrl, transcript, summary, sentiment and confidenceScore are copied
from the patch (each only when present, per the `!== undefined` checks), and
`updated_at` is always re-stamped with a fresh `new Date()`. -/
def applyDbPatch (c : Call) (p : CallPatch) (now : Nat) : Call :=
  { c with
    status := p.status.getD c.status
    duration := p.duration.getD c.duration
    recordingUrl := mergeOpt p.recordingUrl c.recordingUrl
    transcript := mergeOpt p.transcript c.transcript
    summary := mergeOpt p.summary c.summary
    sentiment := mergeOpt p.sentiment c.sentiment
    confidenceScore := mergeOpt p.confidenceScore c.confidenceScore
    updatedAt := now }

/-- The `CallSession` record (interface `CallSession` in `CallManager.ts`). -/
structure CallSession : Type where
  callId : String
  sessionId : String
  userId : Option String
  startTime : Nat
  lastActivity : Nat
  isActive : Bool
  deriving DecidableEq, Repr

/-- Errors thrown by the embedded operations. `callNotFound` is the
`Звонок ... не найден` error of `CallManager`; `dbRowNotFound` is the
`Звонок с ID ... не найден` error of `DatabaseService.updateCall` (zero rows
updated); `connNotFound` is the `Соединение не найдено` error of
`WebRTCHandler`. -/
inductive CMErr : Type
  | callNotFound (callId : String)
  | dbRowNotFound (callId : String)
  | connNotFound
  deriving DecidableEq, Repr

/-- Domain notifications emitted on the `CallManager` event emitter. -/
inductive CMEvent : Type
  | created (c : Call)
  | statusUpdated (callId : String) (oldStatus newStatus : CallStatus)
  | ended (c : Call)
  | sessionCreated (s : CallSession)
  deriving DecidableEq, Repr

/-- Observable external effects, in arrival order: durable-store writes,
cache writes and deletes, emitted domain events. -/
inductive Effect : Type
  | dbCreate (c : Call)
  | dbUpdate (callId : String) (p : CallPatch)
  | cacheSetCall (callId : String) (c : Call) (ttl : Nat)
  | cacheDelCall (callId : String)
  | cacheSetSession (sessionId : String) (s : CallSession) (ttl : Nat)
  | emit (e : CMEvent)
  deriving DecidableEq, Repr

/-- State of the `CallManager` plus its two storage collaborators:
`activeCalls` / `activeSessions` are the in-process hot sets, `cacheCalls` /
`cacheSessions` the Redis entries, `db` the durable `calls` table. -/
structure CMState : Type where
  activeCalls : List (String × Call)
  activeSessions : List (String × CallSession)
  cacheCalls : List (String × Call)
  cacheSessions : List (String × CallSession)
  db : List (String × Call)
  trace : List Effect
  deriving DecidableEq, Repr

/-- The empty initial state: fresh `CallManager`, empty cache and store. -/
def emptyCM : CMState :=
  { activeCalls := [], activeSessions := [], cacheCalls := [],
    cacheSessions := [], db := [], trace := [] }

/-- The call literal built at the top of `CallManager.createCall`:
defaults (fresh uuid, status initiated, duration 0, both timestamps now)
followed by the `...callData` spread, whose present fields overwrite the
defaults. `phoneNumber` and `direction` are written with the TS non-null
assertion `callData.phoneNumber!` / `callData.direction!`, so a draft is
expected to carry both; an absent field is modelled by the spread-semantics
default (the draft value when present). -/
def mkCall (fresh : String) (now : Nat) (d : CallPatch) : Call :=
  { id := d.id.getD fresh
    clientId := d.clientId
    phoneNumber := d.phoneNumber.getD ""
    direction := d.direction.getD .incoming
    status := d.status.getD .initiated
    duration := d.duration.getD 0
    recordingUrl := d.recordingUrl
    transcript := d.transcript
    summary := d.summary
    sentiment := d.sentiment
    confidenceScore := d.confidenceScore
    createdAt := d.createdAt.getD now
    updatedAt := d.updatedAt.getD now }

/-- `CallManager.createCall`: build the call, write it to the durable store,
mirror it to the cache with TTL 3600, add it to the hot set, emit
`call:created`, and return it. `fresh` is the `uuidv4()` value. -/
def createCall (s : CMState) (fresh : String) (now : Nat) (d : CallPatch) :
    Call × CMState :=
  let c := mkCall fresh now d
  (c, { s with
        db := insertA s.db c.id c
        cacheCalls := insertA s.cacheCalls c.id c
        activeCalls := insertA s.activeCalls c.id c
        trace := s.trace ++
          [.dbCreate c, .cacheSetCall c.id c 3600, .emit (.created c)] })

/-- `CallManager.getCall`: hot set first, then cache (populating the hot set
on a hit), then durable store (populating cache with TTL 3600 and hot set on
a hit); `none` only when all three miss. -/
def getCall (s : CMState) (callId : String) : Option Call × CMState :=
  match lookupA s.activeCalls callId with
  | some c => (some c, s)
  | none =>
    match lookupA s.cacheCalls callId with
    | some c => (some c, { s with activeCalls := insertA s.activeCalls callId c })
    | none =>
      match lookupA s.db callId with
      | some c =>
          (some c, { s with
            cacheCalls := insertA s.cacheCalls callId c
            activeCalls := insertA s.activeCalls callId c
            trace := s.trace ++ [.cacheSetCall callId c 3600] })
      | none => (none, s)

/-- The one-field patch `{ status }` that `updateCallStatus` hands to
`DatabaseService.updateCall`. -/
def patchStatus (st : CallStatus) : CallPatch := { status := some st }

/-- `CallManager.updateCallStatus`: resolve the call via `getCall` (throwing
`callNotFound` on a miss), overwrite its status and `updatedAt` (the
retrieved record aliases the hot-set entry, so the field writes are visible
there immediately), then update the durable row (which re-stamps
`updated_at` and throws `dbRowNotFound` when zero rows match), rewrite the
cache entry with TTL 3600, re-set the hot set entry and emit
`call:statusUpdated`. -/
def updateCallStatus (s : CMState) (now : Nat) (callId : String)
    (st : CallStatus) : Except CMErr Call × CMState :=
  let r := getCall s callId
  match r.1 with
  | none => (.error (.callNotFound callId), r.2)
  | some c =>
    let c' := { c with status := st, updatedAt := now }
    let s₂ := { r.2 with activeCalls := insertA r.2.activeCalls callId c' }
    match lookupA s₂.db callId with
    | none => (.error (.dbRowNotFound callId), s₂)
    | some cdb =>
        (.ok c', { s₂ with
          db := insertA s₂.db callId (applyDbPatch cdb (patchStatus st) now)
          cacheCalls := insertA s₂.cacheCalls callId c'
          activeCalls := insertA s₂.activeCalls callId c'
          trace := s₂.trace ++
            [.dbUpdate callId (patchStatus st), .cacheSetCall callId c' 3600,
             .emit (.statusUpdated callId c.status st)] })

/-- `CallManager.endCall`: resolve the call via `getCall` (throwing
`callNotFound` on a miss), `Object.assign` the supplied end data onto it,
force status `completed` and re-stamp `updatedAt` (alias-visible in the hot
set), update the durable row with the raw `endData` patch, delete the cache
entry, delete the hot-set entry and emit `call:ended`. -/
def endCall (s : CMState) (now : Nat) (callId : String) (endData : CallPatch) :
    Except CMErr Call × CMState :=
  let r := getCall s callId
  match r.1 with
  | none => (.error (.callNotFound callId), r.2)
  | some c =>
    let c' := { applyPatch c endData with status := .completed, updatedAt := now }
    let s₂ := { r.2 with activeCalls := insertA r.2.activeCalls callId c' }
    match lookupA s₂.db callId with
    | none => (.error (.dbRowNotFound callId), s₂)
    | some cdb =>
        (.ok c', { s₂ with
          db := insertA s₂.db callId (applyDbPatch cdb endData now)
          cacheCalls := eraseA s₂.cacheCalls callId
          activeCalls := eraseA s₂.activeCalls callId
          trace := s₂.trace ++
            [.dbUpdate callId endData, .cacheDelCall callId,
             .emit (.ended c')] })

/-- `CallManager.createCallSession`: builds the session (fresh uuid, both
timestamps now, active) without consulting the call registry, persists it to
the cache with TTL 3600, adds it to the session hot set, emits
`session:created`, and returns it. -/
def createCallSession (s : CMState) (fresh : String) (now : Nat)
    (callId : String) (userId : Option String) : CallSession × CMState :=
  let sess : CallSession :=
    { callId := callId, sessionId := fresh, userId := userId,
      startTime := now, lastActivity := now, isActive := true }
  (sess, { s with
    cacheSessions := insertA s.cacheSessions fresh sess
    activeSessions := insertA s.activeSessions fresh sess
    trace := s.trace ++
      [.cacheSetSession fresh sess 3600, .emit (.sessionCreated sess)] })

/-- `CallManager.getActiveCalls`: the values of the hot set. -/
def getActiveCalls (s : CMState) : List Call :=
  s.activeCalls.map Prod.snd

/-- WebRTC connection status. -/
inductive ConnStatus : Type
  | connecting
  | connected
  | disconnected
  | failed
  deriving DecidableEq, Repr

/-- The `WebRTCConnection` record of `WebRTCHandler.ts`. -/
structure WebRTCConnection : Type where
  id : String
  callId : String
  socketId : String
  userId : Option String
  status : ConnStatus
  startTime : Nat
  endTime : Option Nat
  duration : Option Nat
  localSDP : Option String
  remoteSDP : Option String
  iceCandidates : List String
  deriving DecidableEq, Repr

/-- Socket messages emitted through the signaling transport: the
acknowledgement to the joining socket, and the relayed offer / answer /
candidate payloads, each tagged with the originating socket identifier
(the `from` field of the emitted object). -/
inductive SigMsg : Type
  | joinedCall (toSock : String) (callId : String) (connectionId : String)
  | offer (toSock : String) (callId : String) (sdp : String) (origin : String)
  | answer (toSock : String) (callId : String) (sdp : String) (origin : String)
  | candidate (toSock : String) (callId : String) (cand : String) (origin : String)
  deriving DecidableEq, Repr

/-- State of the `WebRTCHandler`: the connection map, the socket-to-connection
index, the socket.io rooms (`call-<id>`, keyed here by the call identifier,
each holding its member socket ids), and the outbox of messages sent on
sockets, in order. -/
structure WRState : Type where
  activeConnections : List (String × WebRTCConnection)
  socketToConnection : List (String × String)
  rooms : List (String × List String)
  outbox : List SigMsg
  deriving DecidableEq, Repr

/-- The empty signaling-relay state. -/
def emptyWR : WRState :=
  { activeConnections := [], socketToConnection := [], rooms := [], outbox := [] }

/-- Members of a call's broadcast group (`io` room `call-<id>`). -/
def roomMembers (wr : WRState) (callId : String) : List String :=
  (lookupA wr.rooms callId).getD []

/-- `socket.join`: add the socket to the room; a no-op when it is already a
member (socket.io semantics). -/
def joinRoom (wr : WRState) (callId sockId : String) : WRState :=
  let ms := roomMembers wr callId
  if sockId ∈ ms then wr
  else { wr with rooms := insertA wr.rooms callId (ms ++ [sockId]) }

/-- Remove every occurrence of a socket id from a member list. -/
def removeSock : List String → String → List String
  | [], _ => []
  | m :: rest, sockId =>
      if m = sockId then removeSock rest sockId
      else m :: removeSock rest sockId

/-- `socket.leave`: remove the socket from the room. -/
def leaveRoom (wr : WRState) (callId sockId : String) : WRState :=
  { wr with rooms := insertA wr.rooms callId (removeSock (roomMembers wr callId) sockId) }

/-- `WebRTCHandler.handleJoinCall`: check the call exists through
`CallManager.getCall` (throwing on a miss, before any relay-state change);
build the connection record with id `<callId>-<socketId>`, insert it into
the connection map, point the socket-to-connection index at it (overwriting
any previous mapping for that socket), join the call's room, flip the
connection status to connected, and acknowledge the joining socket. -/
def handleJoinCall (cm : CMState) (wr : WRState) (sockId callId : String)
    (userId : Option String) (now : Nat) :
    Except CMErr Unit × CMState × WRState :=
  let r := getCall cm callId
  match r.1 with
  | none => (.error (.callNotFound callId), r.2, wr)
  | some _ =>
    let connId := callId ++ "-" ++ sockId
    let conn : WebRTCConnection :=
      { id := connId, callId := callId, socketId := sockId, userId := userId,
        status := .connecting, startTime := now, endTime := none,
        duration := none, localSDP := none, remoteSDP := none,
        iceCandidates := [] }
    let wr₁ := { wr with
      activeConnections := insertA wr.activeConnections connId conn
      socketToConnection := insertA wr.socketToConnection sockId connId }
    let wr₂ := joinRoom wr₁ callId sockId
    let conn₂ := { conn with status := .connected }
    (.ok (), r.2, { wr₂ with
      activeConnections := insertA wr₂.activeConnections connId conn₂
      outbox := wr₂.outbox ++ [.joinedCall sockId callId connId] })

/-- `WebRTCHandler.handleLeaveCall`: silent no-op when the socket has no
indexed connection or the connection record is missing; otherwise the record
is marked disconnected and stamped (it is deleted right after, so only the
room and the two maps observably change): the socket leaves the connection's
call room and both map entries are removed. -/
def handleLeaveCall (wr : WRState) (sockId : String) : WRState :=
  match lookupA wr.socketToConnection sockId with
  | none => wr
  | some connId =>
    match lookupA wr.activeConnections connId with
    | none => wr
    | some conn =>
      let wr₁ := leaveRoom wr conn.callId sockId
      { wr₁ with
        activeConnections := eraseA wr₁.activeConnections connId
        socketToConnection := eraseA wr₁.socketToConnection sockId }

/-- Broadcast recipients of `socket.to('call-<id>').emit(...)`: every member
of the room except the sending socket. -/
def broadcastTargets (wr : WRState) (callId sockId : String) : List String :=
  (roomMembers wr callId).filter (fun m => decide (m ≠ sockId))

/-- `WebRTCHandler.handleOffer`: resolve the sender's connection (throwing
`connNotFound` when either lookup misses), overwrite its `localSDP`, and
relay the offer to every other member of the call's room, tagged with the
sender's socket id. -/
def handleOffer (wr : WRState) (sockId callId sdp : String) :
    Except CMErr Unit × WRState :=
  match lookupA wr.socketToConnection sockId with
  | none => (.error .connNotFound, wr)
  | some connId =>
    match lookupA wr.activeConnections connId with
    | none => (.error .connNotFound, wr)
    | some conn =>
      (.ok (), { wr with
        activeConnections :=
          insertA wr.activeConnections connId { conn with localSDP := some sdp }
        outbox := wr.outbox ++
          (broadcastTargets wr callId sockId).map
            (fun m => .offer m callId sdp sockId) })

/-- `WebRTCHandler.handleAnswer`: same as `handleOffer` but overwriting
`remoteSDP` and relaying an answer. -/
def handleAnswer (wr : WRState) (sockId callId sdp : String) :
    Except CMErr Unit × WRState :=
  match lookupA wr.socketToConnection sockId with
  | none => (.error .connNotFound, wr)
  | some connId =>
    match lookupA wr.activeConnections connId with
    | none => (.error .connNotFound, wr)
    | some conn =>
      (.ok (), { wr with
        activeConnections :=
          insertA wr.activeConnections connId { conn with remoteSDP := some sdp }
        outbox := wr.outbox ++
          (broadcastTargets wr callId sockId).map
            (fun m => .answer m callId sdp sockId) })

/-- `WebRTCHandler.handleIceCandidate`: silent return (no error) when the
sender's connection cannot be resolved; otherwise append the candidate to
the connection's list and relay it to every other member of the call's
room, tagged with the sender's socket id. -/
def handleIceCandidate (wr : WRState) (sockId callId cand : String) : WRState :=
  match lookupA wr.socketToConnection sockId with
  | none => wr
  | some connId =>
    match lookupA wr.activeConnections connId with
    | none => wr
    | some conn =>
      { wr with
        activeConnections := insertA wr.activeConnections connId
          { conn with iceCandidates := conn.iceCandidates ++ [cand] }
        outbox := wr.outbox ++
          (broadcastTargets wr callId sockId).map
            (fun m => .candidate m callId cand sockId) }

/-- SIP-side call status. -/
inductive SIPStatus : Type
  | initiated
  | ringing
  | answered
  | completed
  | failed
  deriving DecidableEq, Repr

/-- The `SIPCall` record of `SIPService` (the TransportHandle): the
transport-level session id, direction, endpoints, a locally tracked status
mirror and the timestamps used for duration computation. -/
structure SIPCall : Type where
  id : String
  direction : Direction
  fromUri : String
  toUri : String
  status : SIPStatus
  startTime : Nat
  endTime : Option Nat
  duration : Option Nat
  deriving DecidableEq, Repr

/-- State of the `SIPService`: its handle map keyed by the transport session
id. -/
structure SIPState : Type where
  activeCalls : List (String × SIPCall)
  deriving DecidableEq, Repr

/-- The `SessionState.Terminated` branch of
`SIPService.setupSessionHandlers`: look the handle up by the transport
session id (silent return when absent); mark it completed and stamp its end
time and millisecond duration from the handle's own start time; call
`CallManager.endCall` with `{ duration: Math.floor(ms / 1000), status:
'completed' }`; then delete the handle from the handle map. `callId` is the
Call Registry identifier that `setupSessionHandlers` captured for this
session. -/
def sipOnTerminated (sip : SIPState) (cm : CMState) (sessionId callId : String)
    (now : Nat) : SIPState × CMState :=
  match lookupA sip.activeCalls sessionId with
  | none => (sip, cm)
  | some sipCall =>
    let durMs := now - sipCall.startTime
    let endData : CallPatch :=
      { duration := some (durMs / 1000), status := some .completed }
    let r := endCall cm now callId endData
    ({ activeCalls := eraseA sip.activeCalls sessionId }, r.2)

/-- A call map is key-consistent when every stored call is keyed by its own
identifier; an invariant of every reachable `CallManager` state. -/
def callKeysOK (m : List (String × Call)) : Prop :=
  ∀ p ∈ m, (p.2).id = p.1

instance (m : List (String × Call)) : Decidable (callKeysOK m) := by
  unfold callKeysOK
  infer_instance

/-- Key consistency of all three call tiers. -/
def stateKeysOK (s : CMState) : Prop :=
  callKeysOK s.activeCalls ∧ callKeysOK s.cacheCalls ∧ callKeysOK s.db

instance (s : CMState) : Decidable (stateKeysOK s) := by
  unfold stateKeysOK
  infer_instance

theorem callKeysOK_insertA {m : List (String × Call)} {k : String} {v : Call}
    (hm : callKeysOK m) (hv : v.id = k) : callKeysOK (insertA m k v) := by
  induction m with
  | nil =>
      intro p hp
      simp [insertA] at hp
      simp [hp, hv]
  | cons q rest ih =>
      obtain ⟨k₀, v₀⟩ := q
      have hrest : callKeysOK rest := fun p hp => hm p (List.mem_cons_of_mem _ hp)
      intro p hp
      by_cases h₀ : k₀ = k
      · simp [insertA, h₀] at hp
        rcases hp with hp | hp
        · simp [hp, hv]
        · exact hm p (List.mem_cons_of_mem _ hp)
      · simp [insertA, h₀] at hp
        rcases hp with hp | hp
        · exact hm p (by simp [hp])
        · exact ih hrest p hp

theorem callKeysOK_eraseA {m : List (String × Call)} {k : String}
    (hm : callKeysOK m) : callKeysOK (eraseA m k) := by
  induction m with
  | nil =>
      intro p hp
      simp [eraseA] at hp
  | cons q rest ih =>
      obtain ⟨k₀, v₀⟩ := q
      have hrest : callKeysOK rest := fun p hp => hm p (List.mem_cons_of_mem _ hp)
      intro p hp
      by_cases h₀ : k₀ = k
      · simp [eraseA, h₀] at hp
        exact ih hrest p hp
      · simp [eraseA, h₀] at hp
        rcases hp with hp | hp
        · exact hm p (by simp [hp])
        · exact ih hrest p hp

theorem lookupA_keysOK {m : List (String × Call)} {k : String} {c : Call}
    (hm : callKeysOK m) (h : lookupA m k = some c) : c.id = k := by
  induction m with
  | nil => simp [lookupA] at h
  | cons q rest ih =>
      obtain ⟨k₀, v₀⟩ := q
      have hrest : callKeysOK rest := fun p hp => hm p (List.mem_cons_of_mem _ hp)
      by_cases h₀ : k₀ = k
      · simp [lookupA, h₀] at h
        subst h₀
        exact h ▸ hm (k₀, v₀) (by simp)
      · simp [lookupA, h₀] at h
        exact ih hrest h

/-- When a key-consistent map has no binding for a key, none of its stored
calls carries that identifier. -/
theorem values_id_ne_of_lookup_none {m : List (String × Call)} {k : String}
    (hm : callKeysOK m) (h : lookupA m k = none) :
    ∀ c ∈ m.map Prod.snd, c.id ≠ k := by
  induction m with
  | nil => simp
  | cons q rest ih =>
      obtain ⟨k₀, v₀⟩ := q
      have hrest : callKeysOK rest := fun p hp => hm p (List.mem_cons_of_mem _ hp)
      by_cases h₀ : k₀ = k
      · simp [lookupA, h₀] at h
      · simp [lookupA, h₀] at h
        intro c hc
        simp at hc
        rcases hc with hc | hc
        · subst hc
          have hv : c.id = k₀ := hm (k₀, c) (by simp)
          rw [hv]
          exact h₀
        · exact ih hrest h c (by simpa using hc)

/-- `getCall` never writes the durable store. -/
theorem getCall_db_eq (s : CMState) (callId : String) :
    (getCall s callId).2.db = s.db := by
  unfold getCall
  cases h1 : lookupA s.activeCalls callId with
  | some c => simp
  | none =>
      cases h2 : lookupA s.cacheCalls callId with
      | some c => simp
      | none =>
          cases h3 : lookupA s.db callId <;> simp

/-- `getCall` never touches the session maps. -/
theorem getCall_sessions_eq (s : CMState) (callId : String) :
    (getCall s callId).2.activeSessions = s.activeSessions ∧
      (getCall s callId).2.cacheSessions = s.cacheSessions := by
  unfold getCall
  cases h1 : lookupA s.activeCalls callId with
  | some c => simp
  | none =>
      cases h2 : lookupA s.cacheCalls callId with
      | some c => simp
      | none =>
          cases h3 : lookupA s.db callId <;> simp

/-- On a hit, the returned call is in the post-state hot set under the
requested key. -/
theorem getCall_found_hot {s : CMState} {callId : String} {c : Call}
    (h : (getCall s callId).1 = some c) :
    lookupA (getCall s callId).2.activeCalls callId = some c := by
  unfold getCall at h ⊢
  cases h1 : lookupA s.activeCalls callId with
  | some c₀ =>
      simp [h1] at h ⊢
      exact h
  | none =>
      cases h2 : lookupA s.cacheCalls callId with
      | some c₀ =>
          simp [h1, h2] at h ⊢
          exact h ▸ lookupA_insertA_self _ _ _
      | none =>
          cases h3 : lookupA s.db callId with
          | some c₀ =>
              simp [h1, h2, h3] at h ⊢
              exact h ▸ lookupA_insertA_self _ _ _
          | none => simp [h1, h2, h3] at h

/-- `getCall` preserves key consistency of all three tiers. -/
theorem getCall_keysOK {s : CMState} (callId : String) (hs : stateKeysOK s) :
    stateKeysOK (getCall s callId).2 := by
  obtain ⟨ha, hc, hd⟩ := hs
  unfold getCall
  cases h1 : lookupA s.activeCalls callId with
  | some c => exact ⟨ha, hc, hd⟩
  | none =>
      cases h2 : lookupA s.cacheCalls callId with
      | some c =>
          exact ⟨callKeysOK_insertA ha (lookupA_keysOK hc h2), hc, hd⟩
      | none =>
          cases h3 : lookupA s.db callId with
          | some c =>
              have hid := lookupA_keysOK hd h3
              exact ⟨callKeysOK_insertA ha hid, callKeysOK_insertA hc hid, hd⟩
          | none => exact ⟨ha, hc, hd⟩

/-- A hot-set hit returns the stored call and leaves the state unchanged. -/
theorem getCall_hot {s : CMState} {callId : String} {c : Call}
    (h : lookupA s.activeCalls callId = some c) : getCall s callId = (some c, s) := by
  simp [getCall, h]

/-- An all-tier miss returns `none` and leaves the state unchanged. -/
theorem getCall_miss {s : CMState} {callId : String}
    (h1 : lookupA s.activeCalls callId = none)
    (h2 : lookupA s.cacheCalls callId = none)
    (h3 : lookupA s.db callId = none) : getCall s callId = (none, s) := by
  simp [getCall, h1, h2, h3]

theorem insertA_insertA {α : Type} (m : List (String × α)) (k : String) (v w : α) :
    insertA (insertA m k v) k w = insertA m k w := by
  induction m with
  | nil => simp [insertA]
  | cons p rest ih =>
      obtain ⟨k₀, v₀⟩ := p
      by_cases h₀ : k₀ = k
      · simp [insertA, h₀]
      · simp [insertA, h₀, ih]

theorem eraseA_insertA {α : Type} (m : List (String × α)) (k : String) (v : α) :
    eraseA (insertA m k v) k = eraseA m k := by
  induction m with
  | nil => simp [insertA, eraseA]
  | cons p rest ih =>
      obtain ⟨k₀, v₀⟩ := p
      by_cases h₀ : k₀ = k
      · simp [insertA, eraseA, h₀]
      · simp [insertA, eraseA, h₀, ih]

/-- Effects counted as cache writes of call entries. -/
def cacheSetCount (tr : List Effect) : Nat :=
  tr.countP fun e =>
    match e with
    | .cacheSetCall _ _ _ => true
    | _ => false

/-- Full characterization of a successful `updateCallStatus`: the transition
is applied unconditionally (there is no terminal-status guard in the code),
re-stamping `updatedAt` everywhere and re-writing cache and store. -/
theorem updateCallStatus_ok (s : CMState) (now : Nat) (callId : String)
    (st : CallStatus) (c cdb : Call)
    (hget : (getCall s callId).1 = some c)
    (hdb : lookupA s.db callId = some cdb) :
    updateCallStatus s now callId st =
      (.ok { c with status := st, updatedAt := now },
       { activeCalls := insertA (getCall s callId).2.activeCalls callId
           { c with status := st, updatedAt := now }
         activeSessions := (getCall s callId).2.activeSessions
         cacheCalls := insertA (getCall s callId).2.cacheCalls callId
           { c with status := st, updatedAt := now }
         cacheSessions := (getCall s callId).2.cacheSessions
         db := insertA (getCall s callId).2.db callId
           (applyDbPatch cdb (patchStatus st) now)
         trace := (getCall s callId).2.trace ++
           [.dbUpdate callId (patchStatus st),
            .cacheSetCall callId { c with status := st, updatedAt := now } 3600,
            .emit (.statusUpdated callId c.status st)] }) := by
  have hdb' : lookupA (getCall s callId).2.db callId = some cdb := by
    rw [getCall_db_eq]
    exact hdb
  unfold updateCallStatus
  simp [hget, hdb', insertA_insertA]

/-- Full characterization of a successful `endCall`. -/
theorem endCall_ok (s : CMState) (now : Nat) (callId : String) (p : CallPatch)
    (c cdb : Call)
    (hget : (getCall s callId).1 = some c)
    (hdb : lookupA s.db callId = some cdb) :
    endCall s now callId p =
      (.ok { applyPatch c p with status := .completed, updatedAt := now },
       { activeCalls := eraseA (getCall s callId).2.activeCalls callId
         activeSessions := (getCall s callId).2.activeSessions
         cacheCalls := eraseA (getCall s callId).2.cacheCalls callId
         cacheSessions := (getCall s callId).2.cacheSessions
         db := insertA (getCall s callId).2.db callId (applyDbPatch cdb p now)
         trace := (getCall s callId).2.trace ++
           [.dbUpdate callId p, .cacheDelCall callId,
            .emit (.ended
              { applyPatch c p with status := .completed, updatedAt := now })] }) := by
  have hdb' : lookupA (getCall s callId).2.db callId = some cdb := by
    rw [getCall_db_eq]
    exact hdb
  unfold endCall
  simp [hget, hdb', eraseA_insertA]

/-- Joining a room makes the socket a member. -/
theorem mem_roomMembers_joinRoom_self (wr : WRState) (cid sock : String) :
    sock ∈ roomMembers (joinRoom wr cid sock) cid := by
  unfold joinRoom roomMembers
  by_cases h : sock ∈ (lookupA wr.rooms cid).getD []
  · simp [h]
  · simp [h, lookupA_insertA_self]

/-- Joining one room leaves every other room unchanged. -/
theorem roomMembers_joinRoom_ne (wr : WRState) (cid cid' sock : String)
    (h : cid ≠ cid') :
    roomMembers (joinRoom wr cid sock) cid' = roomMembers wr cid' := by
  unfold joinRoom roomMembers
  by_cases hm : sock ∈ (lookupA wr.rooms cid).getD []
  · simp [hm]
  · simp [hm, lookupA_insertA_ne _ _ _ _ h]

/-- A sample draft carrying only the domain fields. -/
def draft1 : CallPatch :=
  { phoneNumber := some "+79990000001", direction := some Direction.incoming }

/-- The call produced by creating `draft1` at time 100 with uuid `c1`. -/
def call1 : Call := (createCall emptyCM "c1" 100 draft1).1

/-- The `CallManager` state right after that creation. -/
def s1 : CMState := (createCall emptyCM "c1" 100 draft1).2

/-- C4: `getCall` consults hot set, then cache, then durable store, in that
order; a cache hit populates the hot set, a store hit populates both cache
and hot set, and only a miss of all three tiers reports not-found. -/
theorem c4_getCall_three_tiers (s : CMState) (callId : String) :
    ((getCall s callId).1 = none ↔
      lookupA s.activeCalls callId = none ∧ lookupA s.cacheCalls callId = none ∧
        lookupA s.db callId = none) ∧
    (∀ c, lookupA s.activeCalls callId = some c → getCall s callId = (some c, s)) ∧
    (∀ c, lookupA s.activeCalls callId = none →
      lookupA s.cacheCalls callId = some c →
      (getCall s callId).1 = some c ∧
      lookupA (getCall s callId).2.activeCalls callId = some c ∧
      (getCall s callId).2.cacheCalls = s.cacheCalls ∧
      (getCall s callId).2.db = s.db) ∧
    (∀ c, lookupA s.activeCalls callId = none →
      lookupA s.cacheCalls callId = none → lookupA s.db callId = some c →
      (getCall s callId).1 = some c ∧
      lookupA (getCall s callId).2.activeCalls callId = some c ∧
      lookupA (getCall s callId).2.cacheCalls callId = some c ∧
      (getCall s callId).2.db = s.db) := by
  unfold getCall
  cases h1 : lookupA s.activeCalls callId with
  | some c => simp [h1]
  | none =>
      cases h2 : lookupA s.cacheCalls callId with
      | some c => simp [h1, h2, lookupA_insertA_self]
      | none =>
          cases h3 : lookupA s.db callId with
          | some c => simp [h1, h2, h3, lookupA_insertA_self]
          | none => simp [h1, h2, h3]

theorem c4_getCall_three_tiers_witness :
    (getCall s1 "c1").1 = some call1 ∧
      (getCall { s1 with activeCalls := [] } "c1").1 = some call1 ∧
      lookupA (getCall { s1 with activeCalls := [] } "c1").2.activeCalls "c1" =
        some call1 ∧
      (getCall emptyCM "c1").1 = none := by
  have h₁ := (c4_getCall_three_tiers s1 "c1").2.1 call1 (by decide)
  have h₂ := (c4_getCall_three_tiers { s1 with activeCalls := [] } "c1").2.2.1
    call1 (by decide) (by decide)
  have h₃ := (c4_getCall_three_tiers emptyCM "c1").1.mpr
    ⟨by decide, by decide, by decide⟩
  exact ⟨by rw [h₁], h₂.1, h₂.2.1, h₃⟩

/-- C7: on an identifier absent from all three tiers, `getCall` reports
not-found and `updateCallStatus` / `endCall` report NotFound, and none of
the three operations changes any part of the state. -/
theorem c7_unknown_id_no_effects (s : CMState) (callId : String) (now : Nat)
    (st : CallStatus) (p : CallPatch)
    (h1 : lookupA s.activeCalls callId = none)
    (h2 : lookupA s.cacheCalls callId = none)
    (h3 : lookupA s.db callId = none) :
    getCall s callId = (none, s) ∧
    updateCallStatus s now callId st = (.error (.callNotFound callId), s) ∧
    endCall s now callId p = (.error (.callNotFound callId), s) := by
  have hg : getCall s callId = (none, s) := getCall_miss h1 h2 h3
  refine ⟨hg, ?_, ?_⟩
  · simp [updateCallStatus, hg]
  · simp [endCall, hg]

theorem c7_unknown_id_no_effects_witness :
    getCall s1 "ghost" = (none, s1) ∧
      updateCallStatus s1 7 "ghost" CallStatus.answered =
        (.error (.callNotFound "ghost"), s1) ∧
      endCall s1 7 "ghost" {} = (.error (.callNotFound "ghost"), s1) :=
  c7_unknown_id_no_effects s1 "ghost" 7 CallStatus.answered {}
    (by decide) (by decide) (by decide)

/-- Hex digit as accepted case-insensitively by Joi's GUID pattern. -/
def isHexDigit (c : Char) : Bool :=
  (decide ('0' ≤ c) && decide (c ≤ '9')) ||
    (decide ('a' ≤ c) && decide (c ≤ 'f')) ||
    (decide ('A' ≤ c) && decide (c ≤ 'F'))

/-- Consume exactly `n` hex digits, returning the remaining characters. -/
def takeHex : Nat → List Char → Option (List Char)
  | 0, cs => some cs
  | _ + 1, [] => none
  | n + 1, c :: cs => if isHexDigit c then takeHex n cs else none

/-- Consume one occurrence of the captured separator when it is present
(the `?`-quantified backreference of the GUID pattern). The separator is
`:` or `-`, never a hex digit, so this deterministic step is equivalent to
the regex's backtracking. -/
def eatSep (sep : Option Char) (cs : List Char) : List Char :=
  match sep, cs with
  | some sc, c :: rest => if c = sc then rest else cs
  | _, _ => cs

/-- The trailing-bracket check of Joi's GUID validator: after the hex body,
the input must end immediately when no bracket opened it, and with the one
matching closing bracket when one did. -/
def guidClose (openB : Option Char) (cs : List Char) : Bool :=
  match openB, cs with
  | none, [] => true
  | some o, [c] =>
      (o = '(' && c = ')') || (o = '[' && c = ']') ||
        (o = '\x7b' && c = '\x7d')
  | _, _ => false

/-- `Joi.string().uuid()` with no version list, as `schemas.createCall`
applies to `clientId`: an optional opening bracket (parenthesis, square or
curly), 8 hex digits, an optional separator (`:` or `-`), then groups of
4, 4, 4 and 12 hex digits each preceded by an optional repeat of that same
separator, then the closing bracket paired with the opening one (or
end-of-string when none opened). Brackets and separators are not hex
digits, so the direct parse below is equivalent to the regex. -/
def isJoiGuid (s : String) : Bool :=
  let cs := s.data
  let openAndRest : Option Char × List Char :=
    match cs with
    | c :: rest =>
        if c = '(' || c = '[' || c = '\x7b' then (some c, rest) else (none, cs)
    | [] => (none, cs)
  match takeHex 8 openAndRest.2 with
  | none => false
  | some cs2 =>
    let sepAndRest : Option Char × List Char :=
      match cs2 with
      | c :: rest => if c = ':' || c = '-' then (some c, rest) else (none, cs2)
      | [] => (none, cs2)
    match takeHex 4 sepAndRest.2 with
    | none => false
    | some cs4 =>
      match takeHex 4 (eatSep sepAndRest.1 cs4) with
      | none => false
      | some cs5 =>
        match takeHex 4 (eatSep sepAndRest.1 cs5) with
        | none => false
        | some cs6 =>
          match takeHex 12 (eatSep sepAndRest.1 cs6) with
          | none => false
          | some cs7 => guidClose openAndRest.1 cs7

/-- The `phoneNumber` pattern of `schemas.createCall`: an optional leading
plus sign, one digit 1-9, then one to fourteen further digits. -/
def phonePatternOK (s : String) : Bool :=
  let cs :=
    match s.data with
    | '+' :: rest => rest
    | cs => cs
  match cs with
  | c :: rest =>
      (decide ('1' ≤ c) && decide (c ≤ '9')) &&
        (decide (1 ≤ rest.length) && decide (rest.length ≤ 14)) &&
        rest.all fun d => decide ('0' ≤ d) && decide (d ≤ '9')
  | [] => false

/-- `clientId: Joi.string().uuid().optional()`: absent, or a GUID string. -/
def clientIdOK : Option String → Bool
  | none => true
  | some cid => isJoiGuid cid

/-- `phoneNumber: Joi.string().pattern(...).required()`: present and
matching the pattern. -/
def phoneFieldOK : Option String → Bool
  | none => false
  | some pn => phonePatternOK pn

/-- `schemas.createCall` (`middleware/validateRequest`), applied by the
POST `/calls` route to the request body before `createCall` runs: a Joi
object with optional uuid-formatted `clientId`, required `phoneNumber`
matching the pattern above, and required `direction` limited to incoming /
outgoing (subsumed here by the `Direction` type of the typed draft). A Joi
object rejects unknown keys, so every other `Call` field must be absent. -/
def createCallSchemaOK (d : CallPatch) : Prop :=
  clientIdOK d.clientId = true ∧ phoneFieldOK d.phoneNumber = true ∧
    d.direction.isSome = true ∧ d.id = none ∧ d.status = none ∧
    d.duration = none ∧ d.recordingUrl = none ∧ d.transcript = none ∧
    d.summary = none ∧ d.sentiment = none ∧ d.confidenceScore = none ∧
    d.createdAt = none ∧ d.updatedAt = none

instance (d : CallPatch) : Decidable (createCallSchemaOK d) := by
  unfold createCallSchemaOK
  infer_instance

/-- C5: for every draft accepted by `schemas.createCall`, `createCall`
returns a call with the fresh identifier, status initiated (non-terminal),
duration 0 and equal creation and update timestamps set to now, and an
immediately following `getCall` on that identifier returns that same call,
whose remaining fields equal the draft's. -/
theorem c5_create_then_get (s : CMState) (fresh : String) (now : Nat)
    (d : CallPatch) (hv : createCallSchemaOK d) :
    let r := createCall s fresh now d
    r.1.id = fresh ∧ r.1.status = .initiated ∧ isTerminal r.1.status = false ∧
    r.1.duration = 0 ∧ r.1.createdAt = now ∧ r.1.updatedAt = now ∧
    getCall r.2 fresh = (some r.1, r.2) ∧
    some r.1.phoneNumber = d.phoneNumber ∧
    some r.1.direction = d.direction ∧
    r.1.clientId = d.clientId ∧ r.1.recordingUrl = d.recordingUrl ∧
    r.1.transcript = d.transcript ∧ r.1.summary = d.summary ∧
    r.1.sentiment = d.sentiment ∧ r.1.confidenceScore = d.confidenceScore := by
  obtain ⟨hcid, hp, hdir, hid, hst, hdur, hru, htr, hsu, hse, hcs, hca, hua⟩ := hv
  obtain ⟨dir, hdr⟩ := Option.isSome_iff_exists.mp hdir
  obtain ⟨pn, hpn⟩ : ∃ pn, d.phoneNumber = some pn := by
    cases hcase : d.phoneNumber with
    | none => rw [hcase] at hp; simp [phoneFieldOK] at hp
    | some pn => exact ⟨pn, rfl⟩
  have hhot : lookupA (createCall s fresh now d).2.activeCalls fresh =
      some (createCall s fresh now d).1 := by
    simp [createCall, mkCall, hid]
    exact lookupA_insertA_self _ _ _
  refine ⟨?_, ?_, ?_, ?_, ?_, ?_, getCall_hot hhot, ?_, ?_, ?_, ?_, ?_, ?_, ?_, ?_⟩ <;>
    simp [createCall, mkCall, hid, hst, hdur, hca, hua, hpn, hdr, isTerminal]

theorem c5_create_then_get_witness :
    createCallSchemaOK draft1 ∧ call1.id = "c1" ∧ call1.status = .initiated ∧
      call1.duration = 0 ∧ call1.createdAt = 100 ∧ call1.updatedAt = 100 ∧
      getCall s1 "c1" = (some call1, s1) := by
  have h := c5_create_then_get emptyCM "c1" 100 draft1 (by decide)
  exact ⟨by decide, h.1, h.2.1, h.2.2.2.1, h.2.2.2.2.1, h.2.2.2.2.2.1,
    h.2.2.2.2.2.2.1⟩

/-- C1 counterexample: against the empty state, the identifier `ghost`
resolves to no Call, yet `createCallSession` does not fail with NotFound —
it returns an active session and writes it to both the session cache and
the session hot set. -/
theorem c1_counterexample :
    (getCall emptyCM "ghost").1 = none ∧
      (createCallSession emptyCM "sess1" 5 "ghost" none).1 =
        { callId := "ghost", sessionId := "sess1", userId := none,
          startTime := 5, lastActivity := 5, isActive := true } ∧
      lookupA (createCallSession emptyCM "sess1" 5 "ghost" none).2.cacheSessions
          "sess1" =
        some { callId := "ghost", sessionId := "sess1", userId := none,
               startTime := 5, lastActivity := 5, isActive := true } ∧
      lookupA (createCallSession emptyCM "sess1" 5 "ghost" none).2.activeSessions
          "sess1" =
        some { callId := "ghost", sessionId := "sess1", userId := none,
               startTime := 5, lastActivity := 5, isActive := true } := by
  decide

/-- C1 (amended): `createCallSession` never consults the Call Registry: even
for a call identifier that resolves to no Call, it succeeds, returning an
active session for that identifier and writing the session entry to the
session cache and the session hot set. -/
theorem c1_amended_session_created_unchecked (s : CMState) (fresh : String)
    (now : Nat) (callId : String) (userId : Option String)
    (h : (getCall s callId).1 = none) :
    let r := createCallSession s fresh now callId userId
    r.1.callId = callId ∧ r.1.sessionId = fresh ∧ r.1.isActive = true ∧
    lookupA r.2.cacheSessions fresh = some r.1 ∧
    lookupA r.2.activeSessions fresh = some r.1 ∧
    r.2.trace = s.trace ++
      [.cacheSetSession fresh r.1 3600, .emit (.sessionCreated r.1)] := by
  simp [createCallSession, lookupA_insertA_self]

theorem c1_amended_session_created_unchecked_witness :
    (createCallSession emptyCM "sess1" 5 "ghost" none).1.callId = "ghost" ∧
      lookupA (createCallSession emptyCM "sess1" 5 "ghost" none).2.cacheSessions
          "sess1" =
        some (createCallSession emptyCM "sess1" 5 "ghost" none).1 := by
  have h := c1_amended_session_created_unchecked emptyCM "sess1" 5 "ghost" none
    (by decide)
  exact ⟨h.1, h.2.2.2.1⟩

/-- The state `s1` after its call `c1` has been driven to the terminal
status completed at time 110 (the call stays in hot set, cache and store). -/
def s2c : CMState := (updateCallStatus s1 110 "c1" .completed).2

/-- C2 counterexample: `c1` in `s2c` is terminal (completed), yet a second
`updateCallStatus` to completed at time 120 is not a no-op: it re-stamps
`updatedAt` from 110 to 120 on the returned record, on the cache entry and
on the durable row, and performs a second cache write. -/
theorem c2_counterexample :
    (lookupA s2c.activeCalls "c1").map (fun c => isTerminal c.status) =
        some true ∧
      (updateCallStatus s2c 120 "c1" .completed).1.toOption.map Call.updatedAt =
        some 120 ∧
      (lookupA s2c.db "c1").map Call.updatedAt = some 110 ∧
      (lookupA (updateCallStatus s2c 120 "c1" .completed).2.db "c1").map
          Call.updatedAt = some 120 ∧
      cacheSetCount (updateCallStatus s2c 120 "c1" .completed).2.trace =
        cacheSetCount s2c.trace + 1 := by
  decide

/-- C2 (amended): a further `updateCallStatus` on a terminal call still
reports success, but it is not a no-op: the code has no terminal-status
guard, so the transition is applied like any other — the status is
overwritten, `updatedAt` is re-stamped to now in the returned record, the
hot set, the cache and the durable row, and a second cache write and store
write are performed. -/
theorem c2_amended_terminal_update_applied (s : CMState) (now : Nat)
    (callId : String) (st : CallStatus) (c cdb : Call)
    (hget : (getCall s callId).1 = some c)
    (hterm : isTerminal c.status = true)
    (hdb : lookupA s.db callId = some cdb) :
    let r := updateCallStatus s now callId st
    r.1 = .ok { c with status := st, updatedAt := now } ∧
    lookupA r.2.activeCalls callId = some { c with status := st, updatedAt := now } ∧
    lookupA r.2.cacheCalls callId = some { c with status := st, updatedAt := now } ∧
    lookupA r.2.db callId = some (applyDbPatch cdb (patchStatus st) now) ∧
    r.2.trace = (getCall s callId).2.trace ++
      [.dbUpdate callId (patchStatus st),
       .cacheSetCall callId { c with status := st, updatedAt := now } 3600,
       .emit (.statusUpdated callId c.status st)] := by
  rw [updateCallStatus_ok s now callId st c cdb hget hdb]
  simp [lookupA_insertA_self]

theorem c2_amended_terminal_update_applied_witness :
    (updateCallStatus s2c 120 "c1" .completed).1 =
      .ok { call1 with status := .completed, updatedAt := 120 } := by
  have h := c2_amended_terminal_update_applied s2c 120 "c1" .completed
    { call1 with status := .completed, updatedAt := 110 }
    { call1 with status := .completed, updatedAt := 110 }
    (by decide) (by decide) (by decide)
  exact h.1

/-- C6: on an existing call, `endCall` merges the supplied terminal fields,
forces the status to completed (a terminal value), persists the update to
the durable row, removes the cache entry and the hot-set entry — so the
ended call no longer appears in `getActiveCalls` — and emits the `ended`
notification. -/
theorem c6_endCall_effects (s : CMState) (now : Nat) (callId : String)
    (p : CallPatch) (c cdb : Call)
    (hget : (getCall s callId).1 = some c)
    (hdb : lookupA s.db callId = some cdb)
    (hkeys : stateKeysOK s) :
    let r := endCall s now callId p
    r.1 = .ok { applyPatch c p with status := .completed, updatedAt := now } ∧
    isTerminal CallStatus.completed = true ∧
    lookupA r.2.db callId = some (applyDbPatch cdb p now) ∧
    lookupA r.2.cacheCalls callId = none ∧
    lookupA r.2.activeCalls callId = none ∧
    (∀ ca ∈ getActiveCalls r.2, ca.id ≠ callId) ∧
    r.2.trace = (getCall s callId).2.trace ++
      [.dbUpdate callId p, .cacheDelCall callId,
       .emit (.ended
         { applyPatch c p with status := .completed, updatedAt := now })] := by
  have hg := endCall_ok s now callId p c cdb hget hdb
  have hhot : callKeysOK (getCall s callId).2.activeCalls :=
    (getCall_keysOK callId hkeys).1
  refine ⟨by rw [hg], rfl, ?_, ?_, ?_, ?_, by rw [hg]⟩
  · rw [hg]
    exact lookupA_insertA_self _ _ _
  · rw [hg]
    exact lookupA_eraseA_self _ _
  · rw [hg]
    exact lookupA_eraseA_self _ _
  · rw [hg]
    exact values_id_ne_of_lookup_none (callKeysOK_eraseA hhot)
      (lookupA_eraseA_self _ _)

theorem c6_endCall_effects_witness :
    (endCall s1 140 "c1" { duration := some 40 }).1 =
        .ok { call1 with duration := 40, status := .completed, updatedAt := 140 } ∧
      lookupA (endCall s1 140 "c1" { duration := some 40 }).2.cacheCalls "c1" =
        none ∧
      getActiveCalls (endCall s1 140 "c1" { duration := some 40 }).2 = [] := by
  have h := c6_endCall_effects s1 140 "c1" { duration := some 40 } call1 call1
    (by decide) (by decide) (by decide)
  exact ⟨by simpa [applyPatch, mergeOpt, call1, createCall, mkCall, draft1] using h.1,
    h.2.2.2.1, by decide⟩

/-- C10: on an existing call, the record returned by `endCall` always has
status completed (the code overwrites the status after the merge), while
the durable-store update receives `endData`'s own status field, so with
`endData.status = failed` the returned status and the durably persisted
status differ. -/
theorem c10_end_status_divergence (s : CMState) (now : Nat) (callId : String)
    (p : CallPatch) (c cdb : Call)
    (hget : (getCall s callId).1 = some c)
    (hdb : lookupA s.db callId = some cdb) :
    let r := endCall s now callId p
    r.1.toOption.map Call.status = some .completed ∧
    (lookupA r.2.db callId).map Call.status = some (p.status.getD cdb.status) ∧
    (p.status = some .failed →
      (lookupA r.2.db callId).map Call.status = some .failed) := by
  have hg := endCall_ok s now callId p c cdb hget hdb
  refine ⟨by rw [hg]; simp [Except.toOption], ?_, ?_⟩
  · rw [hg]
    simp [lookupA_insertA_self, applyDbPatch]
  · intro hp
    rw [hg]
    simp [lookupA_insertA_self, applyDbPatch, hp]

/-- `joinRoom` only touches the `rooms` field. -/
theorem joinRoom_preserves (wr : WRState) (cid sock : String) :
    (joinRoom wr cid sock).activeConnections = wr.activeConnections ∧
      (joinRoom wr cid sock).socketToConnection = wr.socketToConnection ∧
      (joinRoom wr cid sock).outbox = wr.outbox := by
  unfold joinRoom
  by_cases h : sock ∈ roomMembers wr cid <;> simp [h]

/-- `joinRoom` reads and writes only the `rooms` field, so two states with
equal rooms produce equal rooms. -/
theorem joinRoom_rooms_congr {wr wr' : WRState} (cid sock : String)
    (h : wr.rooms = wr'.rooms) :
    (joinRoom wr cid sock).rooms = (joinRoom wr' cid sock).rooms := by
  unfold joinRoom roomMembers
  rw [h]
  by_cases hm : sock ∈ (lookupA wr'.rooms cid).getD [] <;> simp [hm, h]

/-- A successful `handleJoinCall` acknowledges the join. -/
theorem handleJoinCall_fst (cm : CMState) (wr : WRState)
    (sock callId : String) (userId : Option String) (now : Nat) (c : Call)
    (hex : (getCall cm callId).1 = some c) :
    (handleJoinCall cm wr sock callId userId now).1 = .ok () := by
  unfold handleJoinCall
  simp [hex]

/-- After a successful `handleJoinCall`, the room state is exactly that of
joining the call's room. -/
theorem handleJoinCall_rooms (cm : CMState) (wr : WRState)
    (sock callId : String) (userId : Option String) (now : Nat) (c : Call)
    (hex : (getCall cm callId).1 = some c) :
    (handleJoinCall cm wr sock callId userId now).2.2.rooms =
      (joinRoom wr callId sock).rooms := by
  unfold handleJoinCall
  simp only [hex]
  exact joinRoom_rooms_congr callId sock rfl

/-- After a successful `handleJoinCall`, the socket-to-connection index maps
the socket to the new call's connection, overwriting any previous mapping. -/
theorem handleJoinCall_stc (cm : CMState) (wr : WRState)
    (sock callId : String) (userId : Option String) (now : Nat) (c : Call)
    (hex : (getCall cm callId).1 = some c) :
    (handleJoinCall cm wr sock callId userId now).2.2.socketToConnection =
      insertA wr.socketToConnection sock (callId ++ "-" ++ sock) := by
  unfold handleJoinCall
  simp only [hex]
  exact (joinRoom_preserves _ callId sock).2.1

/-- The `CallManager` state after a second call `c2` has also been created. -/
def draft2 : CallPatch :=
  { phoneNumber := some "+79990000002", direction := some Direction.outgoing }

def sTwo : CMState := (createCall s1 "c2" 100 draft2).2

/-- Socket `S` joins call `c1`, then (without leaving) joins call `c2`. -/
def jr1 : Except CMErr Unit × CMState × WRState :=
  handleJoinCall sTwo emptyWR "S" "c1" none 10

def jr2 : Except CMErr Unit × CMState × WRState :=
  handleJoinCall jr1.2.1 jr1.2.2 "S" "c2" none 20

/-- C3 counterexample: after joining `c1` and then `c2`, both joins
succeeded, yet socket `S` is a member of both calls' broadcast groups at
once, the stale `c1-S` connection record is still present, and the index
points at the `c2` connection — so the reachable state violates the
at-most-one-group invariant and the second join did not implicitly leave
the first call. -/
theorem c3_counterexample :
    jr1.1 = .ok () ∧ jr2.1 = .ok () ∧
      "S" ∈ roomMembers jr2.2.2 "c1" ∧ "S" ∈ roomMembers jr2.2.2 "c2" ∧
      (lookupA jr2.2.2.activeConnections "c1-S").isSome = true ∧
      lookupA jr2.2.2.socketToConnection "S" = some "c2-S" := by
  decide

/-- C3 (amended): joining a second call does not remove the connection from
the first call's broadcast group: after the join the socket is a member of
both groups (the stale membership and connection record persist until an
explicit `leaveCall` or disconnect, which only leaves the most recently
joined call since the index now points there). -/
theorem c3_amended_join_does_not_leave (cm : CMState) (wr : WRState)
    (sock cidA cidB : String) (userId : Option String) (now : Nat) (c : Call)
    (hmem : sock ∈ roomMembers wr cidA)
    (hex : (getCall cm cidB).1 = some c)
    (hne : cidA ≠ cidB) :
    (handleJoinCall cm wr sock cidB userId now).1 = .ok () ∧
      sock ∈ roomMembers (handleJoinCall cm wr sock cidB userId now).2.2 cidA ∧
      sock ∈ roomMembers (handleJoinCall cm wr sock cidB userId now).2.2 cidB ∧
      lookupA (handleJoinCall cm wr sock cidB userId now).2.2.socketToConnection
          sock = some (cidB ++ "-" ++ sock) := by
  have hrooms := handleJoinCall_rooms cm wr sock cidB userId now c hex
  have hA : roomMembers (handleJoinCall cm wr sock cidB userId now).2.2 cidA =
      roomMembers (joinRoom wr cidB sock) cidA := by
    unfold roomMembers
    rw [hrooms]
  have hB : roomMembers (handleJoinCall cm wr sock cidB userId now).2.2 cidB =
      roomMembers (joinRoom wr cidB sock) cidB := by
    unfold roomMembers
    rw [hrooms]
  refine ⟨handleJoinCall_fst cm wr sock cidB userId now c hex, ?_, ?_, ?_⟩
  · rw [hA, roomMembers_joinRoom_ne wr cidB cidA sock (Ne.symm hne)]
    exact hmem
  · rw [hB]
    exact mem_roomMembers_joinRoom_self wr cidB sock
  · rw [handleJoinCall_stc cm wr sock cidB userId now c hex]
    exact lookupA_insertA_self _ _ _

theorem c3_amended_join_does_not_leave_witness :
    jr2.1 = .ok () ∧ "S" ∈ roomMembers jr2.2.2 "c1" ∧
      "S" ∈ roomMembers jr2.2.2 "c2" := by
  have h := c3_amended_join_does_not_leave jr1.2.1 jr1.2.2 "S" "c1" "c2" none 20
    ((createCall s1 "c2" 100 draft2).1) (by decide) (by decide) (by decide)
  exact ⟨h.1, h.2.1, h.2.2.1⟩

theorem c10_end_status_divergence_witness :
    (endCall s1 130 "c1" { status := some .failed }).1.toOption.map
        Call.status = some .completed ∧
      (lookupA (endCall s1 130 "c1" { status := some .failed }).2.db "c1").map
        Call.status = some .failed := by
  have h := c10_end_status_divergence s1 130 "c1" { status := some .failed }
    call1 call1 (by decide) (by decide)
  exact ⟨h.1, h.2.2 rfl⟩

/-- C8: for a joined signaling connection, relaying an offer or answer
overwrites the stored local / remote session description and relaying a
candidate appends to the candidate list; in each case the payload goes to
every other member of the call's broadcast group — never back to the
sender — tagged with the originating socket, and an unknown sender fails
with NotFound for offer and answer. -/
theorem c8_relay_payloads (wr : WRState) (sock connId : String)
    (conn : WebRTCConnection) (sdp sdpa cand : String)
    (h1 : lookupA wr.socketToConnection sock = some connId)
    (h2 : lookupA wr.activeConnections connId = some conn) :
    ((handleOffer wr sock conn.callId sdp).1 = .ok () ∧
     lookupA (handleOffer wr sock conn.callId sdp).2.activeConnections connId =
       some { conn with localSDP := some sdp } ∧
     (∀ m ∈ roomMembers wr conn.callId, m ≠ sock →
        SigMsg.offer m conn.callId sdp sock ∈
          (handleOffer wr sock conn.callId sdp).2.outbox) ∧
     (∀ msg ∈ ((handleOffer wr sock conn.callId sdp).2.outbox).drop
          wr.outbox.length,
        ∃ m, m ∈ roomMembers wr conn.callId ∧ m ≠ sock ∧
          msg = SigMsg.offer m conn.callId sdp sock)) ∧
    ((handleAnswer wr sock conn.callId sdpa).1 = .ok () ∧
     lookupA (handleAnswer wr sock conn.callId sdpa).2.activeConnections connId =
       some { conn with remoteSDP := some sdpa } ∧
     (∀ m ∈ roomMembers wr conn.callId, m ≠ sock →
        SigMsg.answer m conn.callId sdpa sock ∈
          (handleAnswer wr sock conn.callId sdpa).2.outbox) ∧
     (∀ msg ∈ ((handleAnswer wr sock conn.callId sdpa).2.outbox).drop
          wr.outbox.length,
        ∃ m, m ∈ roomMembers wr conn.callId ∧ m ≠ sock ∧
          msg = SigMsg.answer m conn.callId sdpa sock)) ∧
    (lookupA (handleIceCandidate wr sock conn.callId cand).activeConnections
        connId =
       some { conn with iceCandidates := conn.iceCandidates ++ [cand] } ∧
     (∀ m ∈ roomMembers wr conn.callId, m ≠ sock →
        SigMsg.candidate m conn.callId cand sock ∈
          (handleIceCandidate wr sock conn.callId cand).outbox) ∧
     (∀ msg ∈ ((handleIceCandidate wr sock conn.callId cand).outbox).drop
          wr.outbox.length,
        ∃ m, m ∈ roomMembers wr conn.callId ∧ m ≠ sock ∧
          msg = SigMsg.candidate m conn.callId cand sock)) ∧
    (∀ sock', lookupA wr.socketToConnection sock' = none →
       handleOffer wr sock' conn.callId sdp = (.error .connNotFound, wr) ∧
       handleAnswer wr sock' conn.callId sdpa = (.error .connNotFound, wr)) := by
  refine ⟨⟨?_, ?_, ?_, ?_⟩, ⟨?_, ?_, ?_, ?_⟩, ⟨?_, ?_, ?_⟩, ?_⟩
  · simp [handleOffer, h1, h2]
  · simp [handleOffer, h1, h2, lookupA_insertA_self]
  · intro m hm hne
    simp [handleOffer, h1, h2, broadcastTargets]
    tauto
  · intro msg hmsg
    simp [handleOffer, h1, h2, List.drop_left, broadcastTargets] at hmsg
    obtain ⟨m, ⟨hm, hne⟩, hmm⟩ := hmsg
    exact ⟨m, hm, hne, hmm.symm⟩
  · simp [handleAnswer, h1, h2]
  · simp [handleAnswer, h1, h2, lookupA_insertA_self]
  · intro m hm hne
    simp [handleAnswer, h1, h2, broadcastTargets]
    tauto
  · intro msg hmsg
    simp [handleAnswer, h1, h2, List.drop_left, broadcastTargets] at hmsg
    obtain ⟨m, ⟨hm, hne⟩, hmm⟩ := hmsg
    exact ⟨m, hm, hne, hmm.symm⟩
  · simp [handleIceCandidate, h1, h2, lookupA_insertA_self]
  · intro m hm hne
    simp [handleIceCandidate, h1, h2, broadcastTargets]
    tauto
  · intro msg hmsg
    simp [handleIceCandidate, h1, h2, List.drop_left, broadcastTargets] at hmsg
    obtain ⟨m, ⟨hm, hne⟩, hmm⟩ := hmsg
    exact ⟨m, hm, hne, hmm.symm⟩
  · intro sock' h'
    exact ⟨by simp [handleOffer, h'], by simp [handleAnswer, h']⟩

/-- The relay state after sockets `S` and `S2` have both joined call `c1`. -/
def jrS2 : Except CMErr Unit × CMState × WRState :=
  handleJoinCall jr1.2.1 jr1.2.2 "S2" "c1" none 30

theorem c8_relay_payloads_witness :
    (handleOffer jrS2.2.2 "S" "c1" "sdp-offer").1 = .ok () ∧
      SigMsg.offer "S2" "c1" "sdp-offer" "S" ∈
        (handleOffer jrS2.2.2 "S" "c1" "sdp-offer").2.outbox ∧
      (∀ msg ∈ ((handleOffer jrS2.2.2 "S" "c1" "sdp-offer").2.outbox).drop
          jrS2.2.2.outbox.length,
        ∃ m, m ∈ roomMembers jrS2.2.2 "c1" ∧ m ≠ "S" ∧
          msg = SigMsg.offer m "c1" "sdp-offer" "S") := by
  have h := c8_relay_payloads jrS2.2.2 "S" "c1-S"
    { id := "c1-S", callId := "c1", socketId := "S", userId := none,
      status := .connected, startTime := 10, endTime := none, duration := none,
      localSDP := none, remoteSDP := none, iceCandidates := [] }
    "sdp-offer" "sdp-answer" "cand" (by decide) (by decide)
  exact ⟨h.1.1, h.1.2.2.1 "S2" (by decide) (by decide), h.1.2.2.2⟩

/-- A TransportHandle live since ms-time 1000, linked to call `c1`. -/
def sipCall1 : SIPCall :=
  { id := "h1", direction := .incoming, fromUri := "sip:+79990000001",
    toUri := "sip:gw", status := .answered, startTime := 1000,
    endTime := none, duration := none }

def sip1 : SIPState := { activeCalls := [("h1", sipCall1)] }

/-- C9: when the transport reports terminated for a tracked handle, the
associated Call's durable record becomes completed with duration equal to
the whole seconds elapsed since the handle's own start time, the handle is
removed from the handle map, and the call's cache entry is deleted. -/
theorem c9_sip_terminated (sip : SIPState) (cm : CMState)
    (sessionId callId : String) (now : Nat) (sc : SIPCall) (c cdb : Call)
    (hs : lookupA sip.activeCalls sessionId = some sc)
    (hget : (getCall cm callId).1 = some c)
    (hdb : lookupA cm.db callId = some cdb)
    (hstart : sc.startTime ≤ now) :
    lookupA (sipOnTerminated sip cm sessionId callId now).1.activeCalls
        sessionId = none ∧
      (lookupA (sipOnTerminated sip cm sessionId callId now).2.db callId).map
        Call.status = some .completed ∧
      (lookupA (sipOnTerminated sip cm sessionId callId now).2.db callId).map
        Call.duration = some ((now - sc.startTime) / 1000) ∧
      lookupA (sipOnTerminated sip cm sessionId callId now).2.cacheCalls
        callId = none := by
  have hg := endCall_ok cm now callId
    { duration := some ((now - sc.startTime) / 1000),
      status := some CallStatus.completed } c cdb hget hdb
  unfold sipOnTerminated
  simp only [hs]
  rw [hg]
  refine ⟨lookupA_eraseA_self _ _, ?_, ?_, lookupA_eraseA_self _ _⟩
  · simp [lookupA_insertA_self, applyDbPatch]
  · simp [lookupA_insertA_self, applyDbPatch]

theorem c9_sip_terminated_witness :
    lookupA (sipOnTerminated sip1 s1 "h1" "c1" 43000).1.activeCalls "h1" =
        none ∧
      (lookupA (sipOnTerminated sip1 s1 "h1" "c1" 43000).2.db "c1").map
        Call.status = some .completed ∧
      (lookupA (sipOnTerminated sip1 s1 "h1" "c1" 43000).2.db "c1").map
        Call.duration = some 42 ∧
      lookupA (sipOnTerminated sip1 s1 "h1" "c1" 43000).2.cacheCalls "c1" =
        none := by
  have h := c9_sip_terminated sip1 s1 "h1" "c1" 43000 sipCall1 call1 call1
    (by decide) (by decide) (by decide) (by decide)
  refine ⟨h.1, h.2.1, ?_, h.2.2.2⟩
  rw [h.2.2.1]
  decide

end SVA
